import Mathlib

/-!
# Verification of the cluster-api-provider-vsphere core against its spec

Shallow embedding of three parts of the repository:

* the vSphere session manager (`pkg/session`, file `src/unnamed/part_000`,
  function `GetOrCreate` and its helpers);
* the cluster reconciler (`src/controllers/vspherecluster_controller.go`,
  functions `reconcileDelete`, `reconcileDeploymentZones`, `shouldIncludeZone`);
* the VM reconciler (`src/unnamed/part_001`, functions `reconcileNormal`,
  `isWaitingForStaticIPAllocation`, `reconcileNetwork`).

External collaborators (govmomi network calls, the Kubernetes client) are
modelled as oracles: every outcome of an external call is an explicit input
to the embedded function, and the embedded function reproduces exactly the
control flow the Go source performs on those outcomes.
-/

namespace CAPV

/-! ## Session manager (src/unnamed/part_000)

Opaque handles returned by external calls are modelled as numbers: two
handles are the same session object iff they are equal. -/

/-- An authenticated vim client handle (`*govmomi.Client`). -/
abbrev Client := Nat

/-- A tag-manager handle (`*tags.Manager`). -/
abbrev TagMgr := Nat

/-- An active REST session reported by `TagManager.Session` (`*rest.Session`). -/
abbrev RestSession := Nat

/-- Error values (`error`); the payload is the message. -/
abbrev Err := String

/-- Structure `Session` from `pkg/session`: the vim client, the optional datacenter the
finder was scoped to (`session.datacenter` / `Finder.SetDatacenter`), and the
tag manager. -/
structure Session where
  client : Client
  datacenter : Option String
  tagManager : TagMgr
deriving DecidableEq, Repr

/-- The fields of `Params` that the embedded `GetOrCreate` reads.
`password`, `feature` and `caller` only parametrize external calls or logging,
so they live in the oracle (`SessionEnv`), not here. -/
structure Params where
  server : String
  username : String
  datacenter : String
  thumbprint : String
  refreshRestClient : Bool
deriving DecidableEq, Repr

/-- The session cache (`sessionCache sync.Map`), as an association list keyed
by the session key. -/
abbrev Cache := List (String × Session)

/-- Models `sessionCache.Load`. -/
def cacheLoad (c : Cache) (k : String) : Option Session :=
  List.lookup k c

/-- Models `sessionCache.Delete` (also the cache effect of `clearCache`: the
best-effort logouts touch only the external platform, never the map). -/
def cacheDelete (c : Cache) (k : String) : Cache :=
  match c with
  | [] => []
  | entry :: rest =>
    if entry.1 = k then cacheDelete rest k else entry :: cacheDelete rest k

/-- Models `sessionCache.Store`: last write for a key wins. -/
def cacheStore (c : Cache) (k : String) (s : Session) : Cache :=
  (k, s) :: cacheDelete c k

/-- Outcomes of the external calls a single `GetOrCreate` pass can make.

`probeResult` models `s.TagManager.Session(ctx)`; govmomi's
`rest.Client.Session` returns either `(nil, err)` (call failed, in which case
the Go variable `tagManagerSession` holds nil), `(nil, nil)` (no active
session) or `(&s, nil)`, so the result is an `Except` of an `Option`.

`parseResult` models `soap.ParseURL` (which can return `(nil, nil)`, hence
again an `Option` inside), `clientResult` models `newClient` (connection plus
`Login`), `managerResult` models `newManager` (REST login), and `dcResult`
models `session.Finder.Datacenter`. -/
structure SessionEnv where
  probeResult : Except Err (Option RestSession)
  parseResult : Except Err (Option Unit)
  clientResult : Except Err Client
  managerResult : Except Err TagMgr
  dcResult : Except Err String
deriving Repr

/-- The session key computed at the top of `GetOrCreate`:
`params.server + params.userinfo.Username() + params.datacenter`. -/
def sessionKey (p : Params) : String :=
  p.server ++ p.username ++ p.datacenter

/-- The cache-hit branch of `GetOrCreate`: with `refreshRestClient` set, the
code probes the tag manager, logs a probe error, and keeps the cached session
iff the returned `tagManagerSession` is non-nil. -/
def returnCachedDecision (refresh : Bool) (probe : Except Err (Option RestSession)) : Bool :=
  if refresh then
    match probe with
    | .ok (some _) => true
    | .ok none => false
    | .error _ => false
  else
    true

/-- The construction part of `GetOrCreate` (everything after `clearCache`):
parse the URL, build and login the vim client, build the tag manager, resolve
the datacenter when one was requested, then `sessionCache.Store`. On any
error the cache is left as it was after `clearCache`. -/
def createSession (env : SessionEnv) (cache : Cache) (p : Params) (key : String) :
    Except Err Session × Cache :=
  match env.parseResult with
  | .error e => (.error ("error parsing vSphere URL " ++ p.server ++ ": " ++ e), cache)
  | .ok none => (.error ("error parsing vSphere URL " ++ p.server), cache)
  | .ok (some _) =>
    match env.clientResult with
    | .error e => (.error e, cache)
    | .ok client =>
      match env.managerResult with
      | .error e => (.error ("unable to create tags manager: " ++ e), cache)
      | .ok mgr =>
        if p.datacenter = "" then
          let s : Session := ⟨client, none, mgr⟩
          (.ok s, cacheStore cache key s)
        else
          match env.dcResult with
          | .error e =>
            (.error ("unable to find datacenter " ++ p.datacenter ++ ": " ++ e), cache)
          | .ok dc =>
            let s : Session := ⟨client, some dc, mgr⟩
            (.ok s, cacheStore cache key s)

/-- Function `GetOrCreate` from `pkg/session`. Returns the result and the cache after
the call (the Go function mutates the global `sessionCache`). -/
def GetOrCreate (env : SessionEnv) (cache : Cache) (p : Params) :
    Except Err Session × Cache :=
  let key := sessionKey p
  match cacheLoad cache key with
  | some s =>
    if returnCachedDecision p.refreshRestClient env.probeResult then
      (.ok s, cache)
    else
      createSession env (cacheDelete cache key) p key
  | none => createSession env (cacheDelete cache key) p key

/-! ### Cache lemmas -/

theorem cacheLoad_delete_self (c : Cache) (k : String) :
    cacheLoad (cacheDelete c k) k = none := by
  induction c with
  | nil => rfl
  | cons hd tl ih =>
    by_cases h : hd.1 = k
    · simpa [cacheDelete, h] using ih
    · have hk : (k == hd.1) = false := beq_false_of_ne (fun hkk => h hkk.symm)
      simpa [cacheDelete, h, cacheLoad, List.lookup, hk] using ih

theorem cacheLoad_store_self (c : Cache) (k : String) (s : Session) :
    cacheLoad (cacheStore c k s) k = some s := by
  simp [cacheStore, cacheLoad, List.lookup]

/-- Decides whether an `Except` result is the error case. -/
def resultIsError (r : Except Err Session) : Bool :=
  match r with
  | .error _ => true
  | .ok _ => false

/-- On a successful build, `createSession` returns the session assembled from
the oracle's components and stores it under the key. -/
theorem createSession_ok (env : SessionEnv) (cache : Cache) (p : Params) (key : String)
    (cl : Client) (mgr : TagMgr)
    (hparse : env.parseResult = .ok (some ()))
    (hclient : env.clientResult = .ok cl)
    (hmgr : env.managerResult = .ok mgr)
    (hdc : p.datacenter = "" ∨ ∃ dc, env.dcResult = .ok dc) :
    ∃ snew, createSession env cache p key = (.ok snew, cacheStore cache key snew) ∧
      snew.client = cl ∧ snew.tagManager = mgr := by
  rcases hdc with hdc | ⟨dc, hdc⟩
  · refine ⟨⟨cl, none, mgr⟩, ?_, rfl, rfl⟩
    simp [createSession, hparse, hclient, hmgr, hdc]
  · by_cases hempty : p.datacenter = ""
    · refine ⟨⟨cl, none, mgr⟩, ?_, rfl, rfl⟩
      simp [createSession, hparse, hclient, hmgr, hempty]
    · refine ⟨⟨cl, some dc, mgr⟩, ?_, rfl, rfl⟩
      simp [createSession, hparse, hclient, hmgr, hempty, hdc]

/-- CLAIM C1: on a cache hit with forced refresh, if the tag-manager liveness
probe returns an error or reports no active session, `GetOrCreate` does not
return the cached session: it rebuilds a new one from scratch (cache-miss
path), returns it, and stores it under the key; when the fresh login produced
a distinct client handle, the returned session differs from the cached one. -/
theorem getOrCreate_refresh_probe_failed_rebuilds
    (env : SessionEnv) (cache : Cache) (p : Params) (s : Session)
    (cl : Client) (mgr : TagMgr)
    (hhit : cacheLoad cache (sessionKey p) = some s)
    (href : p.refreshRestClient = true)
    (hprobe : env.probeResult = .ok none ∨ ∃ e, env.probeResult = .error e)
    (hparse : env.parseResult = .ok (some ()))
    (hclient : env.clientResult = .ok cl)
    (hmgr : env.managerResult = .ok mgr)
    (hdc : p.datacenter = "" ∨ ∃ dc, env.dcResult = .ok dc)
    (hfresh : cl ≠ s.client) :
    ∃ snew, (GetOrCreate env cache p).1 = .ok snew ∧ snew ≠ s ∧
      cacheLoad (GetOrCreate env cache p).2 (sessionKey p) = some snew := by
  have hdecide : returnCachedDecision p.refreshRestClient env.probeResult = false := by
    rcases hprobe with h | ⟨e, h⟩ <;> simp [returnCachedDecision, href, h]
  obtain ⟨snew, hcs, hcl, _⟩ :=
    createSession_ok env (cacheDelete cache (sessionKey p)) p (sessionKey p)
      cl mgr hparse hclient hmgr hdc
  refine ⟨snew, ?_, ?_, ?_⟩
  · simp [GetOrCreate, hhit, hdecide, hcs]
  · intro hEq
    exact hfresh (by rw [← hcl, hEq])
  · simp [GetOrCreate, hhit, hdecide, hcs, cacheLoad_store_self]

/-- Witness for C1 at a concrete input: cached session `⟨1, none, 2⟩` under the
key of `pRefresh`, probe reports no active session, rebuild succeeds with
client `5` and tag manager `6`. -/
def pRefresh : Params :=
  ⟨"vc.example.com", "admin", "", "", true⟩

def envRefresh : SessionEnv :=
  ⟨.ok none, .ok (some ()), .ok 5, .ok 6, .error "unused"⟩

def cacheRefresh : Cache :=
  [(sessionKey pRefresh, ⟨1, none, 2⟩)]

theorem getOrCreate_refresh_probe_failed_rebuilds_witness :
    ∃ snew, (GetOrCreate envRefresh cacheRefresh pRefresh).1 = .ok snew ∧
      snew ≠ ⟨1, none, 2⟩ ∧
      cacheLoad (GetOrCreate envRefresh cacheRefresh pRefresh).2 (sessionKey pRefresh) =
        some snew :=
  getOrCreate_refresh_probe_failed_rebuilds envRefresh cacheRefresh pRefresh
    ⟨1, none, 2⟩ 5 6 rfl rfl (Or.inl rfl) rfl rfl rfl (Or.inl rfl) (by decide)

/-- Any session found under the key after `createSession` ran over a cache
that did not hold the key is the fully constructed result: every construction
step succeeded, and the datacenter was resolved whenever requested. -/
theorem createSession_found (env : SessionEnv) (cache : Cache) (p : Params) (key : String)
    (s : Session)
    (hbase : cacheLoad cache key = none)
    (hfound : cacheLoad (createSession env cache p key).2 key = some s) :
    (createSession env cache p key).1 = .ok s ∧
      (∃ uu, env.parseResult = .ok (some uu)) ∧
      env.clientResult = .ok s.client ∧
      env.managerResult = .ok s.tagManager ∧
      (p.datacenter ≠ "" → ∃ dc, env.dcResult = .ok dc ∧ s.datacenter = some dc) := by
  obtain ⟨probe, parse, clientR, mgrR, dcR⟩ := env
  rcases parse with e | op
  · simp only [createSession] at hfound
    rw [hbase] at hfound
    exact Option.noConfusion hfound
  · rcases op with _ | uu
    · simp only [createSession] at hfound
      rw [hbase] at hfound
      exact Option.noConfusion hfound
    · rcases clientR with e | cl
      · simp only [createSession] at hfound
        rw [hbase] at hfound
        exact Option.noConfusion hfound
      · rcases mgrR with e | mgr
        · simp only [createSession] at hfound
          rw [hbase] at hfound
          exact Option.noConfusion hfound
        · by_cases hempty : p.datacenter = ""
          · simp only [createSession, if_pos hempty] at hfound ⊢
            rw [cacheLoad_store_self] at hfound
            injection hfound with h
            subst h
            exact ⟨rfl, by simp, rfl, rfl, fun hne => absurd hempty hne⟩
          · rcases dcR with e | dc
            · simp only [createSession, if_neg hempty] at hfound
              rw [hbase] at hfound
              exact Option.noConfusion hfound
            · simp only [createSession, if_neg hempty] at hfound ⊢
              rw [cacheLoad_store_self] at hfound
              injection hfound with h
              subst h
              exact ⟨rfl, by simp, rfl, rfl, fun _ => ⟨dc, rfl, rfl⟩⟩

/-- CLAIM C7: on a cache miss, a non-empty datacenter that the finder cannot
resolve makes the whole call fail with no session stored under the key; and,
in general, a session found in the cache under the key after the call is
exactly the returned, fully constructed one: URL parse, client login,
tag-manager login all succeeded, and the datacenter was resolved and scoped
whenever one was requested. -/
theorem getOrCreate_cache_only_fully_constructed
    (env : SessionEnv) (cache : Cache) (p : Params)
    (hmiss : cacheLoad cache (sessionKey p) = none) :
    (p.datacenter ≠ "" → ∀ e, env.dcResult = .error e →
      resultIsError (GetOrCreate env cache p).1 = true ∧
        cacheLoad (GetOrCreate env cache p).2 (sessionKey p) = none) ∧
    (∀ s, cacheLoad (GetOrCreate env cache p).2 (sessionKey p) = some s →
      (GetOrCreate env cache p).1 = .ok s ∧
        (∃ uu, env.parseResult = .ok (some uu)) ∧
        env.clientResult = .ok s.client ∧
        env.managerResult = .ok s.tagManager ∧
        (p.datacenter ≠ "" → ∃ dc, env.dcResult = .ok dc ∧ s.datacenter = some dc)) := by
  have hGo : GetOrCreate env cache p =
      createSession env (cacheDelete cache (sessionKey p)) p (sessionKey p) := by
    simp [GetOrCreate, hmiss]
  constructor
  · intro hne e hdc
    rw [hGo]
    obtain ⟨probe, parse, clientR, mgrR, dcR⟩ := env
    simp only at hdc
    subst hdc
    rcases parse with e' | op
    · exact ⟨by simp [createSession, resultIsError],
        by simp [createSession, cacheLoad_delete_self]⟩
    · rcases op with _ | uu
      · exact ⟨by simp [createSession, resultIsError],
          by simp [createSession, cacheLoad_delete_self]⟩
      · rcases clientR with e' | cl
        · exact ⟨by simp [createSession, resultIsError],
            by simp [createSession, cacheLoad_delete_self]⟩
        · rcases mgrR with e' | mgr
          · exact ⟨by simp [createSession, resultIsError],
              by simp [createSession, cacheLoad_delete_self]⟩
          · exact ⟨by simp [createSession, resultIsError, if_neg hne],
              by simp [createSession, if_neg hne, cacheLoad_delete_self]⟩
  · intro s hfound
    rw [hGo] at hfound ⊢
    exact createSession_found env (cacheDelete cache (sessionKey p)) p (sessionKey p) s
      (cacheLoad_delete_self cache (sessionKey p)) hfound

/-- Witness for C7 at a concrete input: empty cache, datacenter `dc1`
requested, finder fails to resolve it: the call errors and nothing is
cached under the key. -/
def pDcFail : Params :=
  ⟨"vc.example.com", "admin", "dc1", "", false⟩

def envDcFail : SessionEnv :=
  ⟨.ok none, .ok (some ()), .ok 5, .ok 6, .error "datacenter not found"⟩

theorem getOrCreate_cache_only_fully_constructed_witness :
    resultIsError (GetOrCreate envDcFail [] pDcFail).1 = true ∧
      cacheLoad (GetOrCreate envDcFail [] pDcFail).2 (sessionKey pDcFail) = none :=
  (getOrCreate_cache_only_fully_constructed envDcFail [] pDcFail rfl).1
    (by decide) "datacenter not found" rfl

/-- CLAIM C10: the session key is the separator-free concatenation
`server + username + datacenter`, which identifies the configurations
`("ab", "c", "")` and `("a", "bc", "")`: both produce the key `"abc"`, and a
`GetOrCreate` for the second configuration returns the session that was
cached for the first one. -/
def pKeyA : Params :=
  ⟨"ab", "c", "", "", false⟩

def pKeyB : Params :=
  ⟨"a", "bc", "", "", false⟩

def envKey : SessionEnv :=
  ⟨.ok none, .ok (some ()), .ok 5, .ok 6, .error "unused"⟩

theorem sessionKey_collision :
    sessionKey pKeyA = sessionKey pKeyB ∧ pKeyA ≠ pKeyB ∧
      (GetOrCreate envKey (cacheStore [] (sessionKey pKeyA) ⟨1, none, 2⟩) pKeyB).1 =
        .ok ⟨1, none, 2⟩ :=
  ⟨by decide, by decide, rfl⟩

/-! ## Cluster reconciler: deployment zones
(src/controllers/vspherecluster_controller.go, `reconcileDeploymentZones`,
`shouldIncludeZone`, `contains`) -/

/-- The fields of a `VSphereDeploymentZone` the reconciler reads: object name,
`Spec.Server`, `Spec.ControlPlane` (a pointer the code dereferences), and
`Status.Ready` (`*bool`: `none` = readiness not yet reported). -/
structure VSphereDeploymentZone where
  name : String
  server : String
  controlPlane : Bool
  ready : Option Bool
deriving DecidableEq, Repr

/-- The fields of a `VSphereCluster` that `shouldIncludeZone` reads:
`Spec.Server` and the value of the
`vsphere.infrastructure.cluster.x-k8s.io/adopt-deploymentzone` metadata entry
(`none` when the cluster does not carry it). -/
structure DZCluster where
  server : String
  adoptionValue : Option String
deriving DecidableEq, Repr

/-- Function `contains` from the controller file. -/
def containsStr (list : List String) (search : String) : Bool :=
  match list with
  | [] => false
  | item :: rest => if item = search then true else containsStr rest search

/-- Splitting a character list at a separator, accumulating the current
chunk; executable model of Go's `strings.Split` for a one-character
separator. -/
def splitCharsAux (sep : Char) : List Char → List Char → List String
  | [], acc => [String.mk acc.reverse]
  | c :: rest, acc =>
    if c = sep then String.mk acc.reverse :: splitCharsAux sep rest []
    else splitCharsAux sep rest (c :: acc)

/-- Models `strings.Split(v, ":")`: `"A:B"` gives `["A", "B"]` and `""` gives
`[""]`, exactly as in Go. -/
def splitColon (v : String) : List String :=
  splitCharsAux ':' v.toList []

/-- Function `shouldIncludeZone`: absent adoption entry means no zone is ever
included; otherwise the zone's server must equal the cluster's server and the
zone's name must occur in the colon-separated adoption list. -/
def shouldIncludeZone (zone : VSphereDeploymentZone) (cluster : DZCluster) : Bool :=
  match cluster.adoptionValue with
  | none => false
  | some v => (zone.server == cluster.server) && containsStr (splitColon v) zone.name

/-- The `clusterv1.FailureDomains` map (failure-domain name to
`ControlPlane` eligibility), as an association list with unique keys. -/
abbrev FailureDomains := List (String × Bool)

/-- A Go map assignment `failureDomains[name] = cp`: replace in place or
append. -/
def fdInsert (fd : FailureDomains) (name : String) (cp : Bool) : FailureDomains :=
  match fd with
  | [] => [(name, cp)]
  | entry :: rest =>
    if entry.1 = name then (name, cp) :: rest else entry :: fdInsert rest name cp

/-- The loop of `reconcileDeploymentZones`, carrying the `readyNotReported`
and `notReady` counters and the failure-domain map being built. -/
def dzLoop (cluster : DZCluster) (zones : List VSphereDeploymentZone)
    (readyNotReported notReady : Nat) (failureDomains : FailureDomains) :
    Nat × Nat × FailureDomains :=
  match zones with
  | [] => (readyNotReported, notReady, failureDomains)
  | zone :: rest =>
    if shouldIncludeZone zone cluster then
      match zone.ready with
      | none =>
        dzLoop cluster rest (readyNotReported + 1) notReady
          (fdInsert failureDomains zone.name zone.controlPlane)
      | some true =>
        dzLoop cluster rest readyNotReported notReady
          (fdInsert failureDomains zone.name zone.controlPlane)
      | some false =>
        dzLoop cluster rest readyNotReported (notReady + 1) failureDomains
    else
      dzLoop cluster rest readyNotReported notReady failureDomains

/-- The final value of one named condition after a reconcile pass:
untouched, upserted to False with a reason, or upserted to True. -/
inductive CondMark where
  | unset : CondMark
  | markedFalse (reason : String) : CondMark
  | markedTrue : CondMark
deriving DecidableEq, Repr

def waitingForFailureDomainStatusReason : String := "WaitingForFailureDomainStatus"

def failureDomainsSkippedReason : String := "FailureDomainsSkipped"

/-- Outcome of `reconcileDeploymentZones`: the map written to
`Status.FailureDomains` (written before any early return), the final state of
the `FailureDomainsAvailableCondition`, and the boolean the function returns
(`false` = the caller requeues and defers the rest of the pass). The
list-zones error path is not modelled: the claims address passes where the
zone list was obtained. -/
structure DZResult where
  statusFailureDomains : FailureDomains
  fdCondition : CondMark
  ok : Bool
deriving DecidableEq, Repr

/-- The tail of `reconcileDeploymentZones` after the loop: publish the map to
status unconditionally, then derive the condition and the returned boolean
from the two counters. -/
def dzResultOf (r : Nat × Nat × FailureDomains) : DZResult :=
  if r.1 > 0 then
    ⟨r.2.2, .markedFalse waitingForFailureDomainStatusReason, false⟩
  else if r.2.2.length > 0 then
    if r.2.1 > 0 then
      ⟨r.2.2, .markedFalse failureDomainsSkippedReason, true⟩
    else
      ⟨r.2.2, .markedTrue, true⟩
  else
    ⟨r.2.2, .unset, true⟩

/-- Function `reconcileDeploymentZones` (successful list): count and collect
over all zones, publish the map to status, then derive the condition. -/
def reconcileDeploymentZones (cluster : DZCluster)
    (zones : List VSphereDeploymentZone) : DZResult :=
  dzResultOf (dzLoop cluster zones 0 0 [])

theorem containsStr_eq_true_iff (l : List String) (s : String) :
    containsStr l s = true ↔ s ∈ l := by
  induction l with
  | nil => simp [containsStr]
  | cons hd tl ih =>
    by_cases h : hd = s
    · simp [containsStr, h]
    · simp only [containsStr, if_neg h, ih, List.mem_cons]
      constructor
      · exact Or.inr
      · rintro (h2 | h2)
        · exact absurd h2.symm h
        · exact h2

/-- Unfolding `shouldIncludeZone` into its two requirements. -/
theorem shouldIncludeZone_eq_true_iff (z : VSphereDeploymentZone) (c : DZCluster) :
    shouldIncludeZone z c = true ↔
      ∃ v, c.adoptionValue = some v ∧ z.server = c.server ∧ z.name ∈ splitColon v := by
  rcases hv : c.adoptionValue with _ | v
  · simp only [shouldIncludeZone, hv]
    constructor
    · intro h
      exact Bool.noConfusion h
    · rintro ⟨v, hv2, -⟩
      exact Option.noConfusion hv2
  · simp only [shouldIncludeZone, hv, Bool.and_eq_true, beq_iff_eq,
      containsStr_eq_true_iff]
    constructor
    · rintro ⟨h1, h2⟩
      exact ⟨v, rfl, h1, h2⟩
    · rintro ⟨v2, hv2, h1, h2⟩
      injection hv2 with hv2
      subst hv2
      exact ⟨h1, h2⟩

/-- Scenario of claim C2: zone A on the cluster's server reporting ready,
zone B on the cluster's server reporting not ready, zone C on another
server. -/
def zoneA : VSphereDeploymentZone := ⟨"A", "S1", true, some true⟩

def zoneB : VSphereDeploymentZone := ⟨"B", "S1", true, some false⟩

def zoneC (ready : Option Bool) (cp : Bool) : VSphereDeploymentZone :=
  ⟨"C", "S2", cp, ready⟩

def clusterS1 : DZCluster := ⟨"S1", some "A:B"⟩

/-- CLAIM C2: reconciling zones A (server S1, ready), B (server S1, not
ready), C (server S2, any readiness) for a cluster on server S1 whose
adoption entry is `"A:B"` yields the failure-domain map `{A}` and marks the
aggregate condition false (B not ready); C is excluded whatever its readiness
or eligibility; and in general an included zone's server equals the cluster's
server and its name occurs in the colon-separated adoption list. -/
theorem reconcileDeploymentZones_adoption_scenario (rC : Option Bool) (cpC : Bool) :
    reconcileDeploymentZones clusterS1 [zoneA, zoneB, zoneC rC cpC] =
      ⟨[("A", true)], .markedFalse failureDomainsSkippedReason, true⟩ ∧
    shouldIncludeZone (zoneC rC cpC) clusterS1 = false ∧
    (∀ z c, shouldIncludeZone z c = true →
      ∃ v, c.adoptionValue = some v ∧ z.server = c.server ∧ z.name ∈ splitColon v) := by
  refine ⟨rfl, rfl, ?_⟩
  intro z c hz
  exact (shouldIncludeZone_eq_true_iff z c).mp hz

/-- Witness for C2 with zone C reporting ready: it is still excluded. -/
theorem reconcileDeploymentZones_adoption_scenario_witness :
    reconcileDeploymentZones clusterS1 [zoneA, zoneB, zoneC (some true) true] =
      ⟨[("A", true)], .markedFalse failureDomainsSkippedReason, true⟩ :=
  (reconcileDeploymentZones_adoption_scenario (some true) true).1

theorem lookup_fdInsert (fd : FailureDomains) (m : String) (cp : Bool) (n : String) :
    List.lookup n (fdInsert fd m cp) =
      if n = m then some cp else List.lookup n fd := by
  induction fd with
  | nil =>
    by_cases h : n = m <;>
      simp [fdInsert, List.lookup, h, beq_false_of_ne]
  | cons hd tl ih =>
    by_cases h1 : hd.1 = m
    · rw [show fdInsert (hd :: tl) m cp = (m, cp) :: tl by simp [fdInsert, h1]]
      by_cases h : n = m
      · simp [List.lookup, h]
      · obtain ⟨a, b⟩ := hd
        simp only at h1
        subst h1
        simp [List.lookup, beq_false_of_ne h, h]
    · rw [show fdInsert (hd :: tl) m cp = hd :: fdInsert tl m cp by simp [fdInsert, h1]]
      obtain ⟨a, b⟩ := hd
      simp only at h1
      by_cases h2 : n = a
      · subst h2
        have h : ¬(n = m) := fun hh => h1 (hh ▸ rfl)
        simp [List.lookup, h]
      · simp only [List.lookup, beq_false_of_ne h2]
        exact ih

/-- The predicate deciding that a zone contributes an entry to the final
failure-domain map: included and not reporting not-ready. -/
def zoneEligible (cluster : DZCluster) (n : String) (z : VSphereDeploymentZone) : Bool :=
  (z.name == n) && shouldIncludeZone z cluster && !(decide (z.ready = some false))

/-- The `readyNotReported` counter after the loop counts the included zones
with unreported readiness. -/
theorem dzLoop_fst (cluster : DZCluster) (zones : List VSphereDeploymentZone)
    (rnr nr : Nat) (fd : FailureDomains) :
    (dzLoop cluster zones rnr nr fd).1 =
      rnr + zones.countP (fun z => shouldIncludeZone z cluster && z.ready.isNone) := by
  induction zones generalizing rnr nr fd with
  | nil => simp [dzLoop]
  | cons z rest ih =>
    by_cases hinc : shouldIncludeZone z cluster
    · rcases hr : z.ready with _ | b
      · simp only [dzLoop, if_pos hinc, hr, ih, List.countP_cons, hinc, Option.isNone_none,
          Bool.and_true, if_pos]
        omega
      · rcases b with _ | _ <;>
          simp [dzLoop, hinc, hr, ih, List.countP_cons]
    · simp [dzLoop, hinc, ih, List.countP_cons]

/-- Lookup in the failure-domain map built by the loop, for zone lists with
pairwise distinct names: the first (and only) eligible zone with the looked-up
name decides the entry, and otherwise the accumulator decides. -/
theorem dzLoop_lookup (cluster : DZCluster) (zones : List VSphereDeploymentZone)
    (rnr nr : Nat) (fd : FailureDomains) (n : String)
    (hnodup : (zones.map (fun z => z.name)).Nodup) :
    List.lookup n (dzLoop cluster zones rnr nr fd).2.2 =
      match zones.find? (zoneEligible cluster n) with
      | some z => some z.controlPlane
      | none => List.lookup n fd := by
  induction zones generalizing rnr nr fd with
  | nil => simp [dzLoop]
  | cons z rest ih =>
    rw [List.map_cons, List.nodup_cons] at hnodup
    obtain ⟨hz, hrest⟩ := hnodup
    by_cases hinc : shouldIncludeZone z cluster
    · rcases hr : z.ready with _ | b
      · by_cases hn : z.name = n
        · have hel : zoneEligible cluster n z = true := by
            simp [zoneEligible, hn, hinc, hr]
          rw [List.find?_cons_of_pos _ hel]
          rw [show dzLoop cluster (z :: rest) rnr nr fd =
            dzLoop cluster rest (rnr + 1) nr (fdInsert fd z.name z.controlPlane) by
              simp [dzLoop, hinc, hr]]
          rw [ih _ _ _ hrest]
          have hnone : rest.find? (zoneEligible cluster n) = none := by
            rw [List.find?_eq_none]
            intro x hx hpx
            simp only [zoneEligible, Bool.and_eq_true, beq_iff_eq] at hpx
            have hxname : x.name = z.name := hpx.1.1.trans hn.symm
            have hxmem : x.name ∈ List.map (fun w => w.name) rest :=
              List.mem_map_of_mem (fun w => w.name) hx
            rw [hxname] at hxmem
            exact hz hxmem
          rw [hnone, lookup_fdInsert, hn, if_pos rfl]
        · have hel : zoneEligible cluster n z = false := by
            simp [zoneEligible, hn]
          rw [List.find?_cons_of_neg _ (by simp [hel])]
          rw [show dzLoop cluster (z :: rest) rnr nr fd =
            dzLoop cluster rest (rnr + 1) nr (fdInsert fd z.name z.controlPlane) by
              simp [dzLoop, hinc, hr]]
          rw [ih _ _ _ hrest, lookup_fdInsert]
          have : ¬(n = z.name) := fun hh => hn hh.symm
          simp [this]
      · rcases b with _ | _
        · have hel : zoneEligible cluster n z = false := by
            simp [zoneEligible, hr]
          rw [List.find?_cons_of_neg _ (by simp [hel])]
          rw [show dzLoop cluster (z :: rest) rnr nr fd =
            dzLoop cluster rest rnr (nr + 1) fd by simp [dzLoop, hinc, hr]]
          exact ih _ _ _ hrest
        · by_cases hn : z.name = n
          · have hel : zoneEligible cluster n z = true := by
              simp [zoneEligible, hn, hinc, hr]
            rw [List.find?_cons_of_pos _ hel]
            rw [show dzLoop cluster (z :: rest) rnr nr fd =
              dzLoop cluster rest rnr nr (fdInsert fd z.name z.controlPlane) by
                simp [dzLoop, hinc, hr]]
            rw [ih _ _ _ hrest]
            have hnone : rest.find? (zoneEligible cluster n) = none := by
              rw [List.find?_eq_none]
              intro x hx hpx
              simp only [zoneEligible, Bool.and_eq_true, beq_iff_eq] at hpx
              have hxname : x.name = z.name := hpx.1.1.trans hn.symm
              have hxmem : x.name ∈ List.map (fun w => w.name) rest :=
                List.mem_map_of_mem (fun w => w.name) hx
              rw [hxname] at hxmem
              exact hz hxmem
            rw [hnone, lookup_fdInsert, hn, if_pos rfl]
          · have hel : zoneEligible cluster n z = false := by
              simp [zoneEligible, hn]
            rw [List.find?_cons_of_neg _ (by simp [hel])]
            rw [show dzLoop cluster (z :: rest) rnr nr fd =
              dzLoop cluster rest rnr nr (fdInsert fd z.name z.controlPlane) by
                simp [dzLoop, hinc, hr]]
            rw [ih _ _ _ hrest, lookup_fdInsert]
            have : ¬(n = z.name) := fun hh => hn hh.symm
            simp [this]
    · have hel : zoneEligible cluster n z = false := by
        simp [zoneEligible, hinc]
      rw [List.find?_cons_of_neg _ (by simp [hel])]
      rw [show dzLoop cluster (z :: rest) rnr nr fd =
        dzLoop cluster rest rnr nr fd by simp [dzLoop, hinc]]
      exact ih _ _ _ hrest

/-- The published map is the loop's map in every branch. -/
theorem reconcileDeploymentZones_status (cluster : DZCluster)
    (zones : List VSphereDeploymentZone) :
    (reconcileDeploymentZones cluster zones).statusFailureDomains =
      (dzLoop cluster zones 0 0 []).2.2 := by
  unfold reconcileDeploymentZones dzResultOf
  split_ifs <;> rfl

/-- CLAIM C9: for a zone list with pairwise distinct names, the map published
to the cluster's status contains exactly the adopted zones (server match plus
adoption-list membership) whose readiness is reported true or not yet
reported — adopted zones reporting not-ready are omitted — and whenever at
least one adopted zone has unreported readiness, the function still publishes
that map (unreported zones included, as the iff holds unconditionally) and
returns false, deferring the rest of the pass. -/
theorem reconcileDeploymentZones_publishes_eligible
    (cluster : DZCluster) (zones : List VSphereDeploymentZone)
    (hnodup : (zones.map (fun z => z.name)).Nodup) :
    (∀ n cp,
      List.lookup n (reconcileDeploymentZones cluster zones).statusFailureDomains = some cp ↔
        ∃ z ∈ zones, z.name = n ∧ shouldIncludeZone z cluster = true ∧
          z.ready ≠ some false ∧ z.controlPlane = cp) ∧
    ((∃ z ∈ zones, shouldIncludeZone z cluster = true ∧ z.ready = none) →
      (reconcileDeploymentZones cluster zones).ok = false) := by
  constructor
  · intro n cp
    rw [reconcileDeploymentZones_status, dzLoop_lookup cluster zones 0 0 [] n hnodup]
    constructor
    · intro h
      rcases hf : zones.find? (zoneEligible cluster n) with _ | z
      · rw [hf] at h
        exact absurd h (by simp [List.lookup])
      · rw [hf] at h
        injection h with h
        have hmem := List.mem_of_find?_eq_some hf
        have hp := List.find?_some hf
        simp only [zoneEligible, Bool.and_eq_true, beq_iff_eq, Bool.not_eq_true',
          decide_eq_false_iff_not] at hp
        exact ⟨z, hmem, hp.1.1, hp.1.2, hp.2, h⟩
    · rintro ⟨z, hmem, hname, hinc, hready, hcp⟩
      have hpz : zoneEligible cluster n z = true := by
        simp [zoneEligible, hname, hinc, hready]
      have hsome : (zones.find? (zoneEligible cluster n)).isSome := by
        rw [List.find?_isSome]
        exact ⟨z, hmem, hpz⟩
      rcases hf : zones.find? (zoneEligible cluster n) with _ | z2
      · rw [hf] at hsome
        exact Bool.noConfusion hsome
      · have hmem2 := List.mem_of_find?_eq_some hf
        have hp2 := List.find?_some hf
        simp only [zoneEligible, Bool.and_eq_true, beq_iff_eq, Bool.not_eq_true',
          decide_eq_false_iff_not] at hp2
        have hz2 : z2 = z :=
          List.inj_on_of_nodup_map hnodup hmem2 hmem (by rw [hp2.1.1, hname])
        rw [hz2]
        exact congrArg some hcp
  · rintro ⟨z, hmem, hinc, hready⟩
    have hcount : 0 < zones.countP (fun w => shouldIncludeZone w cluster && w.ready.isNone) := by
      rw [List.countP_pos_iff]
      exact ⟨z, hmem, by simp [hinc, hready]⟩
    have hfst : (dzLoop cluster zones 0 0 []).1 > 0 := by
      rw [dzLoop_fst]
      omega
    unfold reconcileDeploymentZones dzResultOf
    rw [if_pos hfst]

/-- Witness for C9: one adopted ready zone and one adopted zone with
unreported readiness: the unreported zone is in the published map and the
pass defers. -/
def zoneBUnrep : VSphereDeploymentZone := ⟨"B", "S1", false, none⟩

theorem reconcileDeploymentZones_publishes_eligible_witness :
    List.lookup "B" (reconcileDeploymentZones clusterS1
      [zoneA, zoneBUnrep]).statusFailureDomains = some false ∧
    (reconcileDeploymentZones clusterS1 [zoneA, zoneBUnrep]).ok = false := by
  have h := reconcileDeploymentZones_publishes_eligible clusterS1
    [zoneA, zoneBUnrep] (by decide)
  exact ⟨(h.1 "B" false).mpr ⟨zoneBUnrep, by simp, rfl, by decide, by decide, rfl⟩,
    h.2 ⟨zoneBUnrep, by simp, by decide, rfl⟩⟩

/-! ## Cluster reconciler: deletion
(src/controllers/vspherecluster_controller.go, `reconcileDelete`) -/

/-- A Kubernetes client error: the code distinguishes not-found
(`apierrors.IsNotFound`) from everything else. -/
inductive KErr where
  | notFound : KErr
  | other (msg : String) : KErr
deriving DecidableEq, Repr

/-- The part of a Secret the delete path mutates: its finalizer list. -/
structure Secret where
  finalizers : List String
deriving DecidableEq, Repr

/-- Finalizer marker strings. The exact values live in the API types package
(not under src/); only their identity and distinctness matter here. -/
def clusterFinalizer : String := "vspherecluster.infrastructure.cluster.x-k8s.io"

def secretIdentitySetFinalizer : String := "vspherecluster.infrastructure.cluster.x-k8s.io/identity"

def vmFinalizer : String := "vspherevm.infrastructure.cluster.x-k8s.io"

/-- Models `ctrlutil.RemoveFinalizer`: drop every occurrence. -/
def removeFinalizer (fs : List String) (f : String) : List String :=
  match fs with
  | [] => []
  | x :: rest => if x = f then removeFinalizer rest f else x :: removeFinalizer rest f

/-- Models `ctrlutil.AddFinalizer`: append if missing. -/
def addFinalizer (fs : List String) (f : String) : List String :=
  if f ∈ fs then fs else fs ++ [f]

/-- Outcomes of the external calls one `reconcileDelete` pass can make:
the owned-`VSphereMachine` count from `GetVSphereMachinesInCluster`, whether
the cluster has a secret identity reference (`identity.IsSecretIdentity`),
and the results of `Get`/`Update`/`Delete` on the identity secret. -/
structure DeleteEnv where
  machinesResult : Except KErr Nat
  isSecretIdentity : Bool
  secretGet : Except KErr Secret
  secretUpdate : Option KErr
  secretDelete : Option KErr
deriving Repr

/-- Result of one `reconcileDelete` pass. `clusterFinalizers` is the cluster's
finalizer list after the pass (the CCM/CSI condition marking at entry touches
no state any claim mentions, so it is not recorded); `secretUpdated` is the
secret passed to `Update` (with the protective finalizer removed), if `Update`
was called; `secretDeleteCalled` states whether `Delete` was issued. -/
structure DeleteOutcome where
  requeueAfterSec : Option Nat
  err : Option KErr
  clusterFinalizers : List String
  secretUpdated : Option Secret
  secretDeleteCalled : Bool
deriving DecidableEq, Repr

/-- Function `reconcileDelete` of the cluster reconciler: requeue 10s while
owned machines remain; then, for a secret identity, get the secret (not-found
tolerated: proceed to drop the cluster finalizer), remove its protective
finalizer, update, delete — any update/delete error aborts the pass — and
finally drop the cluster's own finalizer. -/
def reconcileDelete (env : DeleteEnv) (finalizers : List String) : DeleteOutcome :=
  match env.machinesResult with
  | .error e => ⟨none, some e, finalizers, none, false⟩
  | .ok count =>
    if count > 0 then
      ⟨some 10, none, finalizers, none, false⟩
    else if env.isSecretIdentity then
      match env.secretGet with
      | .error .notFound =>
        ⟨none, none, removeFinalizer finalizers clusterFinalizer, none, false⟩
      | .error e => ⟨none, some e, finalizers, none, false⟩
      | .ok secret =>
        let updated : Secret := ⟨removeFinalizer secret.finalizers secretIdentitySetFinalizer⟩
        match env.secretUpdate with
        | some e => ⟨none, some e, finalizers, some updated, false⟩
        | none =>
          match env.secretDelete with
          | some e => ⟨none, some e, finalizers, some updated, true⟩
          | none =>
            ⟨none, none, removeFinalizer finalizers clusterFinalizer, some updated, true⟩
    else
      ⟨none, none, removeFinalizer finalizers clusterFinalizer, none, false⟩

theorem mem_removeFinalizer (fs : List String) (f g : String) :
    g ∈ removeFinalizer fs f ↔ g ∈ fs ∧ g ≠ f := by
  induction fs with
  | nil => simp [removeFinalizer]
  | cons x rest ih =>
    by_cases h : x = f
    · rw [show removeFinalizer (x :: rest) f = removeFinalizer rest f by
        simp [removeFinalizer, h]]
      rw [ih]
      subst h
      constructor
      · rintro ⟨h1, h2⟩
        exact ⟨List.mem_cons_of_mem x h1, h2⟩
      · rintro ⟨h1, h2⟩
        rcases List.mem_cons.mp h1 with h3 | h3
        · exact absurd h3 h2
        · exact ⟨h3, h2⟩
    · rw [show removeFinalizer (x :: rest) f = x :: removeFinalizer rest f by
        simp [removeFinalizer, h]]
      simp only [List.mem_cons, ih]
      constructor
      · rintro (h1 | ⟨h1, h2⟩)
        · exact ⟨Or.inl h1, h1 ▸ h⟩
        · exact ⟨Or.inr h1, h2⟩
      · rintro ⟨h1 | h1, h2⟩
        · exact Or.inl h1
        · exact Or.inr ⟨h1, h2⟩

/-- CLAIM C5: while the owned-machine list is non-empty, a Deleting pass
requeues after 10 seconds with the cluster's finalizer list untouched; and,
across all oracles, if the cluster finalizer was present before the pass and
absent after it, the pass observed an empty owned-machine list. -/
theorem reconcileDelete_finalizer_blocked_on_machines
    (env : DeleteEnv) (fs : List String)
    (hmem : clusterFinalizer ∈ fs) :
    (∀ cnt, env.machinesResult = .ok cnt → cnt > 0 →
      (reconcileDelete env fs).requeueAfterSec = some 10 ∧
        (reconcileDelete env fs).clusterFinalizers = fs) ∧
    (clusterFinalizer ∉ (reconcileDelete env fs).clusterFinalizers →
      env.machinesResult = .ok 0) := by
  obtain ⟨machinesR, isSecretId, secretGetR, secretUpdR, secretDelR⟩ := env
  constructor
  · intro cnt hcnt hpos
    simp only at hcnt
    subst hcnt
    constructor <;> simp [reconcileDelete, hpos]
  · intro habs
    rcases machinesR with e | count
    · exact absurd hmem habs
    · have hc0 : count = 0 := by
        by_contra hne
        have hpos : count > 0 := Nat.pos_of_ne_zero hne
        simp only [reconcileDelete, if_pos hpos] at habs
        exact habs hmem
      rw [hc0]

/-- Witness for C5 at a concrete input: one machine left, finalizer present:
the pass requeues for 10 seconds and keeps the finalizer list. -/
def envOneMachine : DeleteEnv :=
  ⟨.ok 1, true, .ok ⟨[secretIdentitySetFinalizer]⟩, none, none⟩

theorem reconcileDelete_finalizer_blocked_on_machines_witness :
    (reconcileDelete envOneMachine [clusterFinalizer]).requeueAfterSec = some 10 ∧
      (reconcileDelete envOneMachine [clusterFinalizer]).clusterFinalizers =
        [clusterFinalizer] :=
  (reconcileDelete_finalizer_blocked_on_machines envOneMachine [clusterFinalizer]
    (by decide)).1 1 rfl (by decide)

/-- COUNTEREXAMPLE to claim C6: machines drained, identity secret present,
`Get` succeeds, but `Update` reports not-found: the code returns that error
and does not remove the cluster's own finalizer, while the claim says the
pass proceeds to remove the cluster finalizer without error. -/
def envUpdateNotFound : DeleteEnv :=
  ⟨.ok 0, true, .ok ⟨[secretIdentitySetFinalizer]⟩, some .notFound, none⟩

theorem reconcileDelete_notFound_on_update_fails :
    (reconcileDelete envUpdateNotFound [clusterFinalizer]).err = some KErr.notFound ∧
      clusterFinalizer ∈
        (reconcileDelete envUpdateNotFound [clusterFinalizer]).clusterFinalizers := by
  exact ⟨rfl, by decide⟩

/-- CLAIM C6 (amended): with machines drained and an identity-bound secret,
the pass removes the secret's protective finalizer, updates it, then deletes
it; a not-found on the `Get` is tolerated — the pass removes the cluster's
finalizer without error; but an error at `Update` or `Delete`, not-found
included, fails the pass and leaves the cluster finalizer in place. -/
theorem reconcileDelete_identity_secret_flow
    (env : DeleteEnv) (fs : List String)
    (h0 : env.machinesResult = .ok 0) (hid : env.isSecretIdentity = true) :
    (env.secretGet = .error .notFound →
      (reconcileDelete env fs).err = none ∧
        (reconcileDelete env fs).clusterFinalizers = removeFinalizer fs clusterFinalizer) ∧
    (∀ secret, env.secretGet = .ok secret →
      (env.secretUpdate = none → env.secretDelete = none →
        (reconcileDelete env fs).err = none ∧
          (reconcileDelete env fs).secretUpdated =
            some ⟨removeFinalizer secret.finalizers secretIdentitySetFinalizer⟩ ∧
          (reconcileDelete env fs).secretDeleteCalled = true ∧
          (reconcileDelete env fs).clusterFinalizers =
            removeFinalizer fs clusterFinalizer) ∧
      (∀ e, env.secretUpdate = some e →
        (reconcileDelete env fs).err = some e ∧
          (reconcileDelete env fs).clusterFinalizers = fs) ∧
      (∀ e, env.secretUpdate = none → env.secretDelete = some e →
        (reconcileDelete env fs).err = some e ∧
          (reconcileDelete env fs).clusterFinalizers = fs)) := by
  obtain ⟨machinesR, isSecretId, secretGetR, secretUpdR, secretDelR⟩ := env
  simp only at h0 hid
  subst h0
  subst hid
  constructor
  · intro hget
    simp only at hget
    subst hget
    exact ⟨rfl, rfl⟩
  · intro secret hget
    simp only at hget
    subst hget
    refine ⟨?_, ?_, ?_⟩
    · intro hupd hdel
      simp only at hupd hdel
      subst hupd
      subst hdel
      exact ⟨rfl, rfl, rfl, rfl⟩
    · intro e hupd
      simp only at hupd
      subst hupd
      exact ⟨rfl, rfl⟩
    · intro e hupd hdel
      simp only at hupd hdel
      subst hupd
      subst hdel
      exact ⟨rfl, rfl⟩

/-- Witness for the amended C6: secret `Get` reports not-found: the pass ends
with no error and the cluster finalizer removed. -/
def envGetNotFound : DeleteEnv :=
  ⟨.ok 0, true, .error .notFound, none, none⟩

theorem reconcileDelete_identity_secret_flow_witness :
    (reconcileDelete envGetNotFound [clusterFinalizer]).err = none ∧
      (reconcileDelete envGetNotFound [clusterFinalizer]).clusterFinalizers =
        removeFinalizer [clusterFinalizer] clusterFinalizer :=
  (reconcileDelete_identity_secret_flow envGetNotFound [clusterFinalizer] rfl rfl).1 rfl

/-! ## VM reconciler (src/unnamed/part_001, `reconcileNormal`,
`isWaitingForStaticIPAllocation`, `reconcileNetwork`) -/

/-- A network device spec (`infrav1.NetworkDeviceSpec`): the DHCP flags and
the statically assigned addresses. -/
structure NetworkDeviceSpec where
  dhcp4 : Bool
  dhcp6 : Bool
  ipAddrs : List String
deriving DecidableEq, Repr

/-- The `infrav1.VirtualMachineState` values `reconcileNormal` compares
against. -/
inductive VMState where
  | ready : VMState
  | notFound : VMState
  | pending : VMState
deriving DecidableEq, Repr

/-- The lifecycle-service report (`infrav1.VirtualMachine`): observed state,
BIOS UUID, and per-interface network status (each entry is that interface's
address list, the only field `reconcileNetwork` reads). -/
structure VirtualMachine where
  state : VMState
  biosUUID : String
  network : List (List String)
deriving DecidableEq, Repr

/-- The fields of a `VSphereVM` resource that `reconcileNormal` reads or
writes: `Spec.BiosUUID`, `Spec.Network.Devices`, the finalizer list,
`Status.FailureReason`/`FailureMessage`, `Status.Network` (as per-interface
address lists), `Status.Addresses`, `Status.Ready`, and the
`VMProvisionedCondition`. -/
structure VSphereVMRes where
  biosUUID : String
  devices : List NetworkDeviceSpec
  finalizers : List String
  failureReason : Option String
  failureMessage : Option String
  statusNetwork : List (List String)
  statusAddresses : List String
  statusReady : Bool
  vmProvisionedCond : CondMark
deriving DecidableEq, Repr

def waitingForStaticIPAllocationReason : String := "WaitingForStaticIPAllocation"

/-- The oracle for one `reconcileNormal` pass: the outcome of
`vmService.ReconcileVM`. -/
structure VMEnv where
  reconcileVMResult : Except Err VirtualMachine
deriving Repr

/-- Result of one `reconcileNormal` pass: the resource afterwards, the
returned error, the requeue delay, and whether `vmService.ReconcileVM` was
invoked. -/
structure VMOutcome where
  vm : VSphereVMRes
  error : Option Err
  requeueAfterSec : Option Nat
  invokedLifecycle : Bool
deriving DecidableEq, Repr

/-- Function `isWaitingForStaticIPAllocation`: some device wants neither
DHCPv4 nor DHCPv6 and has no static address yet. -/
def isWaitingForStaticIPAllocation (devices : List NetworkDeviceSpec) : Bool :=
  match devices with
  | [] => false
  | dev :: rest =>
    if !dev.dhcp4 && !dev.dhcp6 && dev.ipAddrs.length == 0 then true
    else isWaitingForStaticIPAllocation rest

/-- Function `reconcileNetwork`: copy the reported per-interface status and
flatten it into the address list. -/
def reconcileNetwork (vm : VSphereVMRes) (rep : VirtualMachine) : VSphereVMRes :=
  { vm with
    statusNetwork := rep.network
    statusAddresses := rep.network.foldl (fun acc ns => acc ++ ns) [] }

/-- Function `reconcileNormal` of the VM reconciler: stop on a recorded
terminal failure; ensure the finalizer; stop with a waiting condition when a
device lacks both DHCP and a static address; call the lifecycle service; stop
while the reported state is not ready; reject an empty reported BIOS UUID
with a hard error (without assigning it); otherwise assign the reported UUID,
propagate network status, requeue 10s on an empty address list, else mark
ready and the provisioned condition true. -/
def reconcileNormal (env : VMEnv) (vm0 : VSphereVMRes) : VMOutcome :=
  if vm0.failureReason.isSome || vm0.failureMessage.isSome then
    ⟨vm0, none, none, false⟩
  else
    let vm1 := { vm0 with finalizers := addFinalizer vm0.finalizers vmFinalizer }
    if isWaitingForStaticIPAllocation vm1.devices then
      ⟨{ vm1 with vmProvisionedCond := .markedFalse waitingForStaticIPAllocationReason },
        none, none, false⟩
    else
      match env.reconcileVMResult with
      | .error e => ⟨vm1, some ("failed to reconcile VM: " ++ e), none, true⟩
      | .ok rep =>
        if rep.state ≠ .ready then
          ⟨vm1, none, none, true⟩
        else if rep.biosUUID ≠ "" then
          let vm2 := reconcileNetwork { vm1 with biosUUID := rep.biosUUID } rep
          if vm2.statusAddresses.length = 0 then
            ⟨vm2, none, some 10, true⟩
          else
            ⟨{ vm2 with statusReady := true, vmProvisionedCond := .markedTrue },
              none, none, true⟩
        else
          ⟨vm1, some "bios uuid is empty while VM is ready", none, true⟩

/-- CLAIM C3: a Normal pass that reaches the lifecycle service and receives
state ready with an empty persistent identifier returns a hard error and
leaves the resource's own identifier exactly as it was — an already-set
`"abc"` is never overwritten by the empty report. -/
theorem reconcileNormal_empty_uuid_hard_error
    (env : VMEnv) (vm0 : VSphereVMRes) (rep : VirtualMachine)
    (hfr : vm0.failureReason = none) (hfm : vm0.failureMessage = none)
    (hwait : isWaitingForStaticIPAllocation vm0.devices = false)
    (hrep : env.reconcileVMResult = .ok rep)
    (hstate : rep.state = .ready) (huuid : rep.biosUUID = "") :
    (reconcileNormal env vm0).error = some "bios uuid is empty while VM is ready" ∧
      (reconcileNormal env vm0).vm.biosUUID = vm0.biosUUID := by
  obtain ⟨repState, repUUID, repNetwork⟩ := rep
  simp only at hstate huuid
  subst hstate
  subst huuid
  constructor <;>
    simp [reconcileNormal, hfr, hfm, hwait, hrep]

/-- Witness for C3: identifier already `"abc"`, service reports ready with an
empty identifier: hard error, identifier still `"abc"`. -/
def vmResAbc : VSphereVMRes :=
  ⟨"abc", [⟨true, false, []⟩], [vmFinalizer], none, none, [], [], false, .unset⟩

def envReadyEmptyUUID : VMEnv :=
  ⟨.ok ⟨.ready, "", [["10.0.0.1"]]⟩⟩

theorem reconcileNormal_empty_uuid_hard_error_witness :
    (reconcileNormal envReadyEmptyUUID vmResAbc).error =
        some "bios uuid is empty while VM is ready" ∧
      (reconcileNormal envReadyEmptyUUID vmResAbc).vm.biosUUID = vmResAbc.biosUUID :=
  reconcileNormal_empty_uuid_hard_error envReadyEmptyUUID vmResAbc
    ⟨.ready, "", [["10.0.0.1"]]⟩ rfl rfl (by decide) rfl rfl rfl

/-- COUNTEREXAMPLE to claim C4: the resource's identifier is `"abc"`, the
service reports ready with the different non-empty identifier `"xyz"`: the
code overwrites `"abc"` with `"xyz"`, while the claim says an already-set
non-empty identifier is never overwritten. -/
def envReadyXyz : VMEnv :=
  ⟨.ok ⟨.ready, "xyz", [["10.0.0.1"]]⟩⟩

theorem reconcileNormal_overwrites_nonempty_uuid :
    vmResAbc.biosUUID = "abc" ∧
      (reconcileNormal envReadyXyz vmResAbc).vm.biosUUID = "xyz" :=
  ⟨rfl, rfl⟩

/-- CLAIM C4 (amended): in a Normal pass that reaches a ready report, any
non-empty reported identifier is propagated onto the resource — overwriting
whatever was there, set or not — and only an empty report never overwrites
the field: that case errors out and leaves the identifier unchanged. -/
theorem reconcileNormal_uuid_propagation
    (env : VMEnv) (vm0 : VSphereVMRes) (rep : VirtualMachine)
    (hfr : vm0.failureReason = none) (hfm : vm0.failureMessage = none)
    (hwait : isWaitingForStaticIPAllocation vm0.devices = false)
    (hrep : env.reconcileVMResult = .ok rep)
    (hstate : rep.state = .ready) :
    (rep.biosUUID ≠ "" → (reconcileNormal env vm0).vm.biosUUID = rep.biosUUID) ∧
      (rep.biosUUID = "" → (reconcileNormal env vm0).vm.biosUUID = vm0.biosUUID) := by
  obtain ⟨repState, repUUID, repNetwork⟩ := rep
  simp only at hstate ⊢
  subst hstate
  constructor
  · intro hne
    by_cases hlen : (repNetwork.foldl (fun acc ns => acc ++ ns) []).length = 0 <;>
      simp [reconcileNormal, hfr, hfm, hwait, hrep, hne, reconcileNetwork, hlen]
  · intro heq
    subst heq
    simp [reconcileNormal, hfr, hfm, hwait, hrep]

/-- Witness for the amended C4: the `"xyz"` report lands in the field, and an
empty report leaves `"abc"` in place. -/
theorem reconcileNormal_uuid_propagation_witness :
    (reconcileNormal envReadyXyz vmResAbc).vm.biosUUID = "xyz" ∧
      (reconcileNormal envReadyEmptyUUID vmResAbc).vm.biosUUID = vmResAbc.biosUUID :=
  ⟨(reconcileNormal_uuid_propagation envReadyXyz vmResAbc ⟨.ready, "xyz", [["10.0.0.1"]]⟩
      rfl rfl (by decide) rfl rfl).1 (by decide),
    (reconcileNormal_uuid_propagation envReadyEmptyUUID vmResAbc
      ⟨.ready, "", [["10.0.0.1"]]⟩ rfl rfl (by decide) rfl rfl).2 rfl⟩

/-- A device with neither DHCP flag and no static address makes the waiting
check fire. -/
theorem isWaitingForStaticIPAllocation_of_mem
    (devices : List NetworkDeviceSpec) (d : NetworkDeviceSpec)
    (hmem : d ∈ devices) (h4 : d.dhcp4 = false) (h6 : d.dhcp6 = false)
    (haddr : d.ipAddrs = []) :
    isWaitingForStaticIPAllocation devices = true := by
  induction devices with
  | nil => cases hmem
  | cons dev rest ih =>
    rcases List.mem_cons.mp hmem with h | h
    · subst h
      simp [isWaitingForStaticIPAllocation, h4, h6, haddr]
    · by_cases hdev : (!dev.dhcp4 && !dev.dhcp6 && dev.ipAddrs.length == 0) = true
      · simp [isWaitingForStaticIPAllocation, hdev]
      · rw [show isWaitingForStaticIPAllocation (dev :: rest) =
          isWaitingForStaticIPAllocation rest by
            simp [isWaitingForStaticIPAllocation, hdev]]
        exact ih h

/-- CLAIM C8: a Normal pass (no recorded failure) in which some device
requests neither DHCPv4 nor DHCPv6 and has no static address marks the
provisioned condition false with the waiting-for-static-IP reason and returns
without error, and the lifecycle service's reconcile operation is never
invoked. -/
theorem reconcileNormal_waits_for_static_ip
    (env : VMEnv) (vm0 : VSphereVMRes) (d : NetworkDeviceSpec)
    (hfr : vm0.failureReason = none) (hfm : vm0.failureMessage = none)
    (hmem : d ∈ vm0.devices) (h4 : d.dhcp4 = false) (h6 : d.dhcp6 = false)
    (haddr : d.ipAddrs = []) :
    (reconcileNormal env vm0).invokedLifecycle = false ∧
      (reconcileNormal env vm0).error = none ∧
      (reconcileNormal env vm0).vm.vmProvisionedCond =
        .markedFalse waitingForStaticIPAllocationReason := by
  have hwait : isWaitingForStaticIPAllocation vm0.devices = true :=
    isWaitingForStaticIPAllocation_of_mem vm0.devices d hmem h4 h6 haddr
  refine ⟨?_, ?_, ?_⟩ <;>
    simp [reconcileNormal, hfr, hfm, hwait]

/-- Witness for C8: one device without DHCP or static addresses: no lifecycle
call, no error, waiting condition marked. -/
def vmResNoIP : VSphereVMRes :=
  ⟨"", [⟨false, false, []⟩], [], none, none, [], [], false, .unset⟩

theorem reconcileNormal_waits_for_static_ip_witness :
    (reconcileNormal envReadyXyz vmResNoIP).invokedLifecycle = false ∧
      (reconcileNormal envReadyXyz vmResNoIP).error = none ∧
      (reconcileNormal envReadyXyz vmResNoIP).vm.vmProvisionedCond =
        .markedFalse waitingForStaticIPAllocationReason :=
  reconcileNormal_waits_for_static_ip envReadyXyz vmResNoIP ⟨false, false, []⟩
    rfl rfl (by simp [vmResNoIP]) rfl rfl rfl

end CAPV
